import Mathlib

/-
Verification of the task-coordination core of agent_team.py
(Agent Team Orchestrator, 2026-02-09).

The file-based registry is modelled as explicit state: the tasks
directory, the locks directory (current_tasks) and the completed_tasks
directory are association lists keyed by the file stem, kept in the
order the filesystem enumerates the files.  Atomic exclusive file
creation (os.O_CREAT | os.O_EXCL) serialises racing claim attempts, so
a race is modelled as two consecutive calls on the shared state.
Timestamps (time.time()) are abstracted as natural numbers supplied by
the caller.
-/

namespace AgentTeam

/-- Mirror of the TaskStatus enum of agent_team.py. -/
inductive TaskStatus where
  | pending
  | claimed
  | in_progress
  | completed
  | failed
  | blocked
deriving DecidableEq, Repr

/-- Mirror of the string payload of each TaskStatus member. -/
def TaskStatus.value : TaskStatus → String
  | .pending => "pending"
  | .claimed => "claimed"
  | .in_progress => "in_progress"
  | .completed => "completed"
  | .failed => "failed"
  | .blocked => "blocked"

/-- Inverse of TaskStatus.value; the TaskStatus constructor of Python
raises ValueError on an unknown string, modelled as none. -/
def statusOfValue (v : String) : Option TaskStatus :=
  if v = "pending" then some TaskStatus.pending
  else if v = "claimed" then some TaskStatus.claimed
  else if v = "in_progress" then some TaskStatus.in_progress
  else if v = "completed" then some TaskStatus.completed
  else if v = "failed" then some TaskStatus.failed
  else if v = "blocked" then some TaskStatus.blocked
  else none

/-- Mirror of the Task dataclass.  Timestamps are naturals. -/
structure Task where
  id : String
  description : String
  status : TaskStatus := TaskStatus.pending
  claimed_by : Option String := none
  claimed_at : Option Nat := none
  completed_at : Option Nat := none
  dependencies : List String := []
  result : Option String := none
  error : Option String := none
  priority : Int := 0
deriving DecidableEq, Repr

/-- The dictionary produced by Task.to_dict and persisted as the JSON
content of the task file: every field of the dataclass, with the status
replaced by its string value. -/
structure TaskDict where
  id : String
  description : String
  status : String
  claimed_by : Option String
  claimed_at : Option Nat
  completed_at : Option Nat
  dependencies : List String
  result : Option String
  error : Option String
  priority : Int
deriving DecidableEq, Repr

/-- Mirror of Task.to_dict: asdict(self) with status mapped to its value. -/
def Task.to_dict (t : Task) : TaskDict :=
  { id := t.id
    description := t.description
    status := t.status.value
    claimed_by := t.claimed_by
    claimed_at := t.claimed_at
    completed_at := t.completed_at
    dependencies := t.dependencies
    result := t.result
    error := t.error
    priority := t.priority }

/-- Mirror of Task.from_dict: parses the status string back into the
enum (none models the ValueError path) and rebuilds the dataclass. -/
def Task.from_dict (d : TaskDict) : Option Task :=
  match statusOfValue d.status with
  | none => none
  | some st =>
      some { id := d.id
             description := d.description
             status := st
             claimed_by := d.claimed_by
             claimed_at := d.claimed_at
             completed_at := d.completed_at
             dependencies := d.dependencies
             result := d.result
             error := d.error
             priority := d.priority }

/-- Mirror of the lock_data dictionary written into a lock file by
claim_task. -/
structure LockData where
  agent_id : String
  claimed_at : Nat
  task_id : String
deriving DecidableEq, Repr

/-- Association-list lookup keyed by file stem: some content when the
file exists, none when it does not. -/
def lookupA {α : Type} : List (String × α) → String → Option α
  | [], _ => none
  | (k, v) :: rest, key => if k = key then some v else lookupA rest key

/-- Writing a file: overwrite the entry in place when the name exists,
otherwise create a new directory entry. -/
def setA {α : Type} : List (String × α) → String → α → List (String × α)
  | [], key, v => [(key, v)]
  | (k, w) :: rest, key, v =>
      if k = key then (key, v) :: rest else (k, w) :: setA rest key v

/-- Deleting a file (Path.unlink). -/
def removeA {α : Type} : List (String × α) → String → List (String × α)
  | [], _ => []
  | (k, w) :: rest, key =>
      if k = key then rest else (k, w) :: removeA rest key

/-- On-disk state of a TaskRegistry: the tasks directory, the
current_tasks (locks) directory and the completed_tasks directory.
Each list holds the files in enumeration order; file contents are the
parsed records (justified by the to_dict / from_dict round-trip proved
below). -/
structure RegistryState where
  tasks : List (String × Task)
  locks : List (String × LockData)
  completed : List (String × Task)
deriving DecidableEq, Repr

/-- Mirror of TaskRegistry.add_task: json.dump of task.to_dict into
tasks_dir / (task.id ++ suffix), overwriting any existing file. -/
def add_task (s : RegistryState) (t : Task) : RegistryState :=
  { s with tasks := setA s.tasks t.id t }

/-- Mirror of TaskRegistry.get_task: none when the file is absent. -/
def get_task (s : RegistryState) (task_id : String) : Option Task :=
  lookupA s.tasks task_id

/-- The record claim_task writes back for an existing task: status
claimed, with the claiming agent and timestamp recorded. -/
def claimedTask (t : Task) (agent_id : String) (now : Nat) : Task :=
  { t with status := TaskStatus.claimed,
           claimed_by := some agent_id,
           claimed_at := some now }

/-- Mirror of TaskRegistry.claim_task.  The os.open call with
O_CREAT | O_EXCL fails exactly when the lock file already exists; on
success the lock record is written, then the task record (when there is
one) is updated to claimed.  On FileExistsError the function returns
false having changed nothing. -/
def claim_task (s : RegistryState) (task_id agent_id : String) (now : Nat) :
    Bool × RegistryState :=
  match lookupA s.locks task_id with
  | some _ => (false, s)
  | none =>
      let s1 : RegistryState :=
        { s with locks := (task_id, ⟨agent_id, now, task_id⟩) :: s.locks }
      match lookupA s1.tasks task_id with
      | none => (true, s1)
      | some t => (true, add_task s1 (claimedTask t agent_id now))

/-- Result of release_task: ok carries the updated state, while
ownershipViolation models the PermissionError raise, which happens
before any mutation, so it carries the unchanged state. -/
inductive ReleaseResult where
  | ok (s : RegistryState)
  | ownershipViolation (s : RegistryState)
deriving DecidableEq, Repr

/-- The record release_task writes back: status completed on success
and failed otherwise, with completed_at, result and error overwritten. -/
def releasedTask (t : Task) (success : Bool) (result error : Option String)
    (now : Nat) : Task :=
  { t with status := if success then TaskStatus.completed else TaskStatus.failed,
           completed_at := some now,
           result := result,
           error := error }

/-- The task-record update half of release_task: when the task file
exists its status becomes completed or failed via releasedTask, the
file is rewritten via add_task, and then the task file named by
task_id, if present, is copied (shutil.copy, not a move) into
completed_tasks. -/
def applyRelease (s : RegistryState) (task_id : String) (success : Bool)
    (result error : Option String) (now : Nat) : RegistryState :=
  match lookupA s.tasks task_id with
  | none => s
  | some t =>
      let s1 := add_task s (releasedTask t success result error now)
      match lookupA s1.tasks task_id with
      | none => s1
      | some cur => { s1 with completed := setA s1.completed task_id cur }

/-- Mirror of TaskRegistry.release_task: the ownership check runs only
when a lock file exists; on mismatch PermissionError is raised before
any mutation; otherwise the lock is unlinked and the task record is
updated whether or not a lock existed. -/
def release_task (s : RegistryState) (task_id agent_id : String) (success : Bool)
    (result error : Option String) (now : Nat) : ReleaseResult :=
  match lookupA s.locks task_id with
  | some ld =>
      if ld.agent_id ≠ agent_id then
        ReleaseResult.ownershipViolation s
      else
        let s1 : RegistryState := { s with locks := removeA s.locks task_id }
        ReleaseResult.ok (applyRelease s1 task_id success result error now)
  | none =>
      ReleaseResult.ok (applyRelease s task_id success result error now)

/-- The filter half of get_available_tasks: iterate the task files in
directory-enumeration order, keep those whose status is pending and
that pass the dependencies_met callback (a missing callback, the
default, filters nothing). -/
def eligibleEnum (ts : List (String × Task)) (dependencies_met : Option (Task → Bool)) :
    List Task :=
  (ts.map Prod.snd).filter fun t =>
    decide (t.status = TaskStatus.pending) &&
      (match dependencies_met with
       | none => true
       | some p => p t)

/-- One step of the stable descending insertion used to model the
Python sorted(available, key priority, reverse): the element is placed
before the first entry whose priority is not larger, so entries of
equal priority keep their input order. -/
def insertDesc (x : Task) : List Task → List Task
  | [] => [x]
  | y :: ys =>
      if x.priority < y.priority then y :: insertDesc x ys else x :: y :: ys

/-- Stable sort by priority descending, the behaviour of the sorted
builtin with reverse set on the priority key. -/
def sortDesc : List Task → List Task
  | [] => []
  | x :: xs => insertDesc x (sortDesc xs)

/-- Mirror of TaskRegistry.get_available_tasks over the tasks directory
in enumeration order. -/
def get_available_tasks (ts : List (String × Task))
    (dependencies_met : Option (Task → Bool)) : List Task :=
  sortDesc (eligibleEnum ts dependencies_met)

/-- The exact call the agent loop makes (line 466 of the source):
get_available_tasks with the dependencies_met argument left at its
default of None. -/
def loopAvailable (s : RegistryState) : List Task :=
  get_available_tasks s.tasks none

/-- Outcome of the caller-supplied task handler: a normal return of
(success, message), or a raised exception with its message. -/
inductive HandlerOutcome where
  | ok (success : Bool) (msg : String)
  | raised (e : String)
deriving DecidableEq, Repr

/-- One workspace-manager call made during execute_task, with the
outcome the call reported. -/
inductive WsCall where
  | sync
  | push (ok : Bool)
deriving DecidableEq, Repr

/-- Result of execute_task: the returned boolean (none when the method
itself ends in an uncaught exception), the registry state after the
call, and the sequence of workspace sync and push calls performed. -/
structure ExecResult where
  returned : Option Bool
  state : RegistryState
  trace : List WsCall
deriving DecidableEq, Repr

/-- Mirror of AgentTeamOrchestrator.execute_task.  The workspace is
synced, the handler runs, and only on handler success is push_changes
called; a rejected push is retried exactly once after a fresh sync,
but the retried push outcome (push_success of line 429) is never read
afterwards: release_task is called with the handler success flag.  The
push outcomes p1 and p2 are inputs standing for what push_changes
reports.  A PermissionError from release_task is caught by the except
block, whose own release_task call raises it again, so it escapes. -/
def execute_task (s : RegistryState) (task_id agent_id : String)
    (h : HandlerOutcome) (p1 p2 : Bool) (now : Nat) : ExecResult :=
  match h with
  | HandlerOutcome.raised e =>
      match release_task s task_id agent_id false none (some e) now with
      | ReleaseResult.ok s1 =>
          { returned := some false, state := s1, trace := [WsCall.sync] }
      | ReleaseResult.ownershipViolation s1 =>
          { returned := none, state := s1, trace := [WsCall.sync] }
  | HandlerOutcome.ok success msg =>
      let tr : List WsCall :=
        if success then
          if p1 then [WsCall.sync, WsCall.push p1]
          else [WsCall.sync, WsCall.push p1, WsCall.sync, WsCall.push p2]
        else [WsCall.sync]
      match release_task s task_id agent_id success
          (if success then some msg else none)
          (if success then none else some msg) now with
      | ReleaseResult.ok s1 =>
          { returned := some success, state := s1, trace := tr }
      | ReleaseResult.ownershipViolation s1 =>
          { returned := none, state := s1, trace := tr }

/-- What one iteration of the agent loop observes from the registry:
the list returned by get_available_tasks and the claimed and
in_progress counters of get_stats.  Supplying these per iteration
leaves the concurrent evolution of the store unconstrained. -/
structure LoopObs where
  available : List Task
  claimedCount : Nat
  inProgressCount : Nat

/-- Body of the while loop of agent_loop, with the remaining iteration
budget (max_iterations minus the iterations counter) as fuel: the
counter is incremented at the top of every pass, and the loop breaks
only when no task is available and the claimed and in_progress
counters are both zero; every other pass continues. -/
def loop_go (obs : Nat → LoopObs) : Nat → Nat → Nat
  | 0, iterations => iterations
  | fuel + 1, iterations =>
      if (obs iterations).available.isEmpty &&
          ((obs iterations).claimedCount == 0) &&
          ((obs iterations).inProgressCount == 0) then
        iterations + 1
      else
        loop_go obs fuel (iterations + 1)

/-- Mirror of the iteration count of AgentTeamOrchestrator.agent_loop:
starting from zero with a budget of max_iterations. -/
def agent_loop_iters (obs : Nat → LoopObs) (max_iterations : Nat) : Nat :=
  loop_go obs max_iterations 0

/-- A directory holds at most one file per name. -/
def keysNodup {α : Type} (l : List (String × α)) : Prop :=
  (l.map Prod.fst).Nodup

/-- No task record carries one of the two reserved statuses that the
base protocol never assigns. -/
def NoReserved (ts : List (String × Task)) : Prop :=
  ∀ p ∈ ts, p.2.status ≠ TaskStatus.blocked ∧ p.2.status ≠ TaskStatus.in_progress

/- Concrete identifiers, records and registry states used in witnesses
and counterexamples. -/

def tid1 : String := "task-aaaa0001"

def tid2 : String := "task-bbbb0002"

def agentA : String := "agent-00"

def agentB : String := "agent-01"

def msgDone : String := "done"

def msgBoom : String := "boom"

/-- A pending task with no dependencies. -/
def taskP : Task := { id := tid1, description := "implement lexer" }

/-- A pending task that depends on tid1 and outranks it. -/
def taskDep : Task :=
  { id := tid2, description := "implement parser",
    dependencies := [tid1], priority := 5 }

/-- Registry with the single pending task taskP and no locks. -/
def wS : RegistryState := { tasks := [(tid1, taskP)], locks := [], completed := [] }

/-- Registry with taskP pending and taskDep pending with its
dependency tid1 not completed. -/
def wDep : RegistryState :=
  { tasks := [(tid1, taskP), (tid2, taskDep)], locks := [], completed := [] }

/-- Lock record held by agentA on tid1. -/
def lockA : LockData := { agent_id := agentA, claimed_at := 1, task_id := tid1 }

/-- The record of taskP once claimed by agentA. -/
def taskC : Task :=
  { taskP with status := TaskStatus.claimed,
               claimed_by := some agentA, claimed_at := some 1 }

/-- Registry in which agentA holds the lock on tid1 and the task is
claimed: the state right after a successful claim. -/
def wL : RegistryState :=
  { tasks := [(tid1, taskC)], locks := [(tid1, lockA)], completed := [] }

/-- Registry state produced by releasing tid1 on wS, used to exhibit
the mutation performed by an ownerless release. -/
def c3After : RegistryState := applyRelease wS tid1 true (some msgDone) none 5

/-- Equal-priority pending tasks; taskA4 is created first. -/
def taskA4 : Task := { id := "task-a", description := "created first", priority := 3 }

/-- Second-created task of the equal-priority pair. -/
def taskB4 : Task := { id := "task-b", description := "created second", priority := 3 }

/-- State after agentA claims tid1 on wS. -/
def c7s1 : RegistryState := (claim_task wS tid1 agentA 1).2

/-- State after agentA releases tid1 with success on c7s1. -/
def c7s2 : RegistryState :=
  match release_task c7s1 tid1 agentA true (some msgDone) none 2 with
  | ReleaseResult.ok s => s
  | ReleaseResult.ownershipViolation s => s

/-- State after agentB re-claims the already completed, unlocked tid1. -/
def c7s3 : RegistryState := (claim_task c7s2 tid1 agentB 3).2

/-- Registry with no task record and no lock for tid2. -/
def wEmpty : RegistryState := { tasks := [], locks := [], completed := [] }

/-- Registry state produced by an owning release of tid1 on wS, used
as the concrete released state in witnesses. -/
def c7w : RegistryState := applyRelease wS tid1 true (some msgDone) none 2

/-- Boolean test for one priority level, used to state stability of
the scheduling order. -/
def prioEq (c : Int) (t : Task) : Bool :=
  decide (t.priority = c)

theorem lookupA_setA_self {α : Type} (l : List (String × α)) (k : String) (v : α) :
    lookupA (setA l k v) k = some v := by
  induction l with
  | nil => simp [setA, lookupA]
  | cons p rest ih =>
      obtain ⟨k2, w⟩ := p
      by_cases h : k2 = k
      · simp [setA, h, lookupA]
      · simp [setA, h, lookupA, ih]

theorem mem_setA {α : Type} {p : String × α} :
    ∀ {l : List (String × α)} {k : String} {v : α},
      p ∈ setA l k v → p = (k, v) ∨ p ∈ l := by
  intro l
  induction l with
  | nil => intro k v h; simpa [setA] using h
  | cons q rest ih =>
      intro k v h
      obtain ⟨k2, w⟩ := q
      by_cases hk : k2 = k
      · simp [setA, hk] at h
        rcases h with h | h
        · exact Or.inl (by simp [h])
        · exact Or.inr (List.mem_cons_of_mem _ h)
      · simp [setA, hk] at h
        rcases h with h | h
        · exact Or.inr (by simp [h])
        · rcases ih h with h2 | h2
          · exact Or.inl h2
          · exact Or.inr (List.mem_cons_of_mem _ h2)

theorem not_mem_keys_of_lookupA_none {α : Type} :
    ∀ {l : List (String × α)} {k : String},
      lookupA l k = none → k ∉ l.map Prod.fst := by
  intro l
  induction l with
  | nil => intro k _; simp
  | cons q rest ih =>
      intro k h
      obtain ⟨k2, w⟩ := q
      by_cases hk : k2 = k
      · simp [lookupA, hk] at h
      · simp [lookupA, hk] at h
        simp [hk, ih h]
        exact fun he => hk he.symm

theorem mem_insertDesc {x z : Task} :
    ∀ {l : List Task}, z ∈ insertDesc x l ↔ z = x ∨ z ∈ l := by
  intro l
  induction l with
  | nil => simp [insertDesc]
  | cons y ys ih =>
      by_cases h : x.priority < y.priority
      · simp [insertDesc, h, ih]
        tauto
      · simp [insertDesc, h]

theorem pairwise_insertDesc {x : Task} :
    ∀ {l : List Task},
      List.Pairwise (fun a b => b.priority ≤ a.priority) l →
      List.Pairwise (fun a b => b.priority ≤ a.priority) (insertDesc x l) := by
  intro l
  induction l with
  | nil => intro _; simp [insertDesc]
  | cons y ys ih =>
      intro h
      rw [List.pairwise_cons] at h
      obtain ⟨hy, hys⟩ := h
      by_cases hlt : x.priority < y.priority
      · rw [insertDesc]
        simp only [hlt, if_pos]
        rw [List.pairwise_cons]
        refine ⟨?_, ih hys⟩
        intro z hz
        rcases mem_insertDesc.mp hz with rfl | hz2
        · exact le_of_lt hlt
        · exact hy z hz2
      · rw [insertDesc]
        simp only [hlt, if_neg, not_false_iff]
        rw [List.pairwise_cons]
        refine ⟨?_, ?_⟩
        · intro z hz
          rcases List.mem_cons.mp hz with rfl | hz2
          · exact le_of_not_lt hlt
          · exact le_trans (hy z hz2) (le_of_not_lt hlt)
        · rw [List.pairwise_cons]
          exact ⟨hy, hys⟩

theorem pairwise_sortDesc :
    ∀ l : List Task,
      List.Pairwise (fun a b => b.priority ≤ a.priority) (sortDesc l) := by
  intro l
  induction l with
  | nil => simp [sortDesc]
  | cons x xs ih => exact pairwise_insertDesc ih

theorem filter_insertDesc_self {c : Int} {x : Task} (hx : x.priority = c) :
    ∀ l : List Task,
      (insertDesc x l).filter (prioEq c) = x :: l.filter (prioEq c) := by
  intro l
  induction l with
  | nil => simp [insertDesc, prioEq, hx]
  | cons y ys ih =>
      by_cases hlt : x.priority < y.priority
      · have hy : prioEq c y = false := by
          simp only [prioEq, decide_eq_false_iff_not]
          intro he
          rw [hx] at hlt
          rw [he] at hlt
          exact lt_irrefl c hlt
        rw [insertDesc]
        simp only [hlt, if_pos]
        rw [List.filter_cons, List.filter_cons]
        simp [hy, ih]
      · rw [insertDesc]
        simp only [hlt, if_neg, not_false_iff]
        rw [List.filter_cons]
        simp [prioEq, hx]

theorem filter_insertDesc_other {c : Int} {x : Task} (hx : ¬ x.priority = c) :
    ∀ l : List Task,
      (insertDesc x l).filter (prioEq c) = l.filter (prioEq c) := by
  intro l
  induction l with
  | nil => simp [insertDesc, prioEq, hx]
  | cons y ys ih =>
      by_cases hlt : x.priority < y.priority
      · rw [insertDesc]
        simp only [hlt, if_pos]
        rw [List.filter_cons, List.filter_cons]
        rw [ih]
      · rw [insertDesc]
        simp only [hlt, if_neg, not_false_iff]
        rw [List.filter_cons]
        simp [prioEq, hx]

theorem filter_sortDesc (c : Int) :
    ∀ l : List Task, (sortDesc l).filter (prioEq c) = l.filter (prioEq c) := by
  intro l
  induction l with
  | nil => rfl
  | cons x xs ih =>
      by_cases hx : x.priority = c
      · rw [sortDesc, filter_insertDesc_self hx, ih, List.filter_cons]
        simp [prioEq, hx]
      · rw [sortDesc, filter_insertDesc_other hx, ih, List.filter_cons]
        simp [prioEq, hx]

theorem claim_locks_cons (s : RegistryState) (task_id a : String) (n : Nat)
    (hl : lookupA s.locks task_id = none) :
    (claim_task s task_id a n).1 = true ∧
    (claim_task s task_id a n).2.locks =
      (task_id, ⟨a, n, task_id⟩) :: s.locks := by
  cases ht : lookupA s.tasks task_id <;> simp [claim_task, hl, ht, add_task]

theorem claim_task_of_locked (s : RegistryState) (task_id a : String) (n : Nat)
    (ld : LockData) (hl : lookupA s.locks task_id = some ld) :
    claim_task s task_id a n = (false, s) := by
  simp [claim_task, hl]

theorem applyRelease_lookup (s : RegistryState) (task_id : String) (success : Bool)
    (result error : Option String) (now : Nat) (t : Task)
    (ht : lookupA s.tasks task_id = some t) (hid : t.id = task_id) :
    lookupA (applyRelease s task_id success result error now).tasks task_id =
      some (releasedTask t success result error now)
    ∧ lookupA (applyRelease s task_id success result error now).completed task_id =
      some (releasedTask t success result error now) := by
  have hid2 : (releasedTask t success result error now).id = task_id := by
    simp [releasedTask, hid]
  have h1 : lookupA (add_task s (releasedTask t success result error now)).tasks task_id
      = some (releasedTask t success result error now) := by
    rw [add_task]
    show lookupA (setA s.tasks (releasedTask t success result error now).id
      (releasedTask t success result error now)) task_id = _
    rw [hid2]
    exact lookupA_setA_self _ _ _
  rw [applyRelease, ht]
  simp only [h1]
  exact ⟨trivial, lookupA_setA_self _ _ _⟩

theorem release_owner_ok (s : RegistryState) (task_id agent_id : String)
    (success : Bool) (result error : Option String) (now : Nat) (ld : LockData)
    (hl : lookupA s.locks task_id = some ld) (hown : ld.agent_id = agent_id) :
    release_task s task_id agent_id success result error now =
      ReleaseResult.ok (applyRelease { s with locks := removeA s.locks task_id }
        task_id success result error now) := by
  simp [release_task, hl, hown]

theorem release_non_owner_raises (s : RegistryState) (task_id agent_id : String)
    (success : Bool) (result error : Option String) (now : Nat) (ld : LockData)
    (hl : lookupA s.locks task_id = some ld) (hne : ld.agent_id ≠ agent_id) :
    release_task s task_id agent_id success result error now =
      ReleaseResult.ownershipViolation s := by
  simp [release_task, hl, hne]

theorem release_no_lock_ok (s : RegistryState) (task_id agent_id : String)
    (success : Bool) (result error : Option String) (now : Nat)
    (hl : lookupA s.locks task_id = none) :
    release_task s task_id agent_id success result error now =
      ReleaseResult.ok (applyRelease s task_id success result error now) := by
  simp [release_task, hl]

theorem noReserved_setA {ts : List (String × Task)} {k : String} {t : Task}
    (h : NoReserved ts)
    (ht : t.status ≠ TaskStatus.blocked ∧ t.status ≠ TaskStatus.in_progress) :
    NoReserved (setA ts k t) := by
  intro p hp
  rcases mem_setA hp with rfl | hp2
  · exact ht
  · exact h p hp2

theorem applyRelease_tasks (s : RegistryState) (task_id : String) (success : Bool)
    (result error : Option String) (now : Nat) :
    (applyRelease s task_id success result error now).tasks = s.tasks
    ∨ ∃ t, lookupA s.tasks task_id = some t ∧
        (applyRelease s task_id success result error now).tasks =
          setA s.tasks (releasedTask t success result error now).id
            (releasedTask t success result error now) := by
  cases ht : lookupA s.tasks task_id with
  | none => left; rw [applyRelease, ht]
  | some t =>
      right
      refine ⟨t, rfl, ?_⟩
      rw [applyRelease, ht]
      cases h2 : lookupA (setA s.tasks (releasedTask t success result error now).id
          (releasedTask t success result error now)) task_id <;>
        simp [h2, add_task]

theorem noReserved_applyRelease (s : RegistryState) (task_id : String) (success : Bool)
    (result error : Option String) (now : Nat) (h : NoReserved s.tasks) :
    NoReserved (applyRelease s task_id success result error now).tasks := by
  rcases applyRelease_tasks s task_id success result error now with he | ⟨t, _, he⟩
  · rw [he]; exact h
  · rw [he]
    refine noReserved_setA h ?_
    cases success <;> simp [releasedTask]

theorem loop_go_le (obs : Nat → LoopObs) :
    ∀ fuel i : Nat, loop_go obs fuel i ≤ i + fuel := by
  intro fuel
  induction fuel with
  | zero => intro i; simp [loop_go]
  | succ f ih =>
      intro i
      rw [loop_go]
      cases h : ((obs i).available.isEmpty &&
          ((obs i).claimedCount == 0) && ((obs i).inProgressCount == 0)) with
      | true =>
          simp only [h, if_pos]
          omega
      | false =>
          simp only [h, Bool.false_eq_true, if_neg, not_false_iff]
          have h2 := ih (i + 1)
          omega

/-- Claim C1: claim_task succeeds exactly when no lock record for the
task identifier existed beforehand; a failed attempt returns false
with the state unchanged; once one of two attempts racing on the same
identifier has succeeded (the atomic exclusive file creation
serialises them) the other fails; and the lock directory keeps at most
one lock record per task identifier. -/
theorem claim_task_spec (s : RegistryState) (task_id a1 a2 : String) (n1 n2 : Nat) :
    ((claim_task s task_id a1 n1).1 = true ↔ lookupA s.locks task_id = none)
    ∧ ((claim_task s task_id a1 n1).1 = false →
        claim_task s task_id a1 n1 = (false, s))
    ∧ (lookupA s.locks task_id = none →
        (claim_task s task_id a1 n1).1 = true ∧
        (claim_task (claim_task s task_id a1 n1).2 task_id a2 n2).1 = false)
    ∧ (keysNodup s.locks → keysNodup (claim_task s task_id a1 n1).2.locks) := by
  cases hl : lookupA s.locks task_id with
  | some ld =>
      have he := claim_task_of_locked s task_id a1 n1 ld hl
      refine ⟨?_, ?_, ?_, ?_⟩
      · rw [he]; simp [hl]
      · intro _; exact he
      · intro h; exact absurd h (by simp [hl])
      · intro h; rw [he]; exact h
  | none =>
      obtain ⟨h1, h2⟩ := claim_locks_cons s task_id a1 n1 hl
      refine ⟨?_, ?_, ?_, ?_⟩
      · rw [h1]; simp [hl]
      · intro hfalse; rw [h1] at hfalse; exact absurd hfalse (by simp)
      · intro _
        refine ⟨h1, ?_⟩
        have hsome : lookupA (claim_task s task_id a1 n1).2.locks task_id =
            some ⟨a1, n1, task_id⟩ := by
          rw [h2]; simp [lookupA]
        exact (claim_task_of_locked _ task_id a2 n2 _ hsome) ▸ rfl
      · intro hnd
        rw [h2]
        unfold keysNodup at *
        simp only [List.map_cons, List.nodup_cons]
        exact ⟨not_mem_keys_of_lookupA_none hl, hnd⟩

/-- Witness for claim_task_spec at the one-task registry wS: the first
claim succeeds, the racing second claim fails, the lock keys stay
duplicate-free, and success coincides with prior lock absence. -/
theorem claim_task_spec_witness :
    ((claim_task wS tid1 agentA 0).1 = true ∧
      (claim_task (claim_task wS tid1 agentA 0).2 tid1 agentB 1).1 = false)
    ∧ keysNodup (claim_task wS tid1 agentA 0).2.locks
    ∧ ((claim_task wS tid1 agentA 0).1 = true ↔ lookupA wS.locks tid1 = none) :=
  ⟨(claim_task_spec wS tid1 agentA agentB 0 1).2.2.1 (by decide),
   (claim_task_spec wS tid1 agentA agentB 0 1).2.2.2 (by unfold keysNodup; decide),
   (claim_task_spec wS tid1 agentA agentB 0 1).1⟩

/-- Claim C8: the to_dict and from_dict serialisation of a task
round-trips every field, and add_task followed by get_task on the same
identifier returns a record identical to the one written, timestamps
included. -/
theorem add_task_round_trip (s : RegistryState) (t : Task) :
    Task.from_dict (Task.to_dict t) = some t
    ∧ get_task (add_task s t) t.id = some t := by
  constructor
  · cases t with
    | mk i d st cb ca co dep r e p => cases st <;> rfl
  · show lookupA (setA s.tasks t.id t) t.id = some t
    exact lookupA_setA_self _ _ _

/-- Claim C9: claim_task does not require a task record: on an
identifier with no task record and no lock it still returns true and
creates the lock record owned by the calling agent, while the tasks
and completed directories are left untouched. -/
theorem claim_task_no_record (s : RegistryState) (task_id agent_id : String) (now : Nat)
    (htask : get_task s task_id = none) (hlock : lookupA s.locks task_id = none) :
    (claim_task s task_id agent_id now).1 = true
    ∧ (claim_task s task_id agent_id now).2.tasks = s.tasks
    ∧ (claim_task s task_id agent_id now).2.completed = s.completed
    ∧ lookupA (claim_task s task_id agent_id now).2.locks task_id =
        some { agent_id := agent_id, claimed_at := now, task_id := task_id } := by
  have ht : lookupA s.tasks task_id = none := htask
  refine ⟨?_, ?_, ?_, ?_⟩ <;> simp [claim_task, hlock, ht, lookupA]

/-- Witness for claim_task_no_record on the empty registry. -/
theorem claim_task_no_record_witness :
    (claim_task wEmpty tid2 agentA 7).1 = true
    ∧ (claim_task wEmpty tid2 agentA 7).2.tasks = wEmpty.tasks
    ∧ (claim_task wEmpty tid2 agentA 7).2.completed = wEmpty.completed
    ∧ lookupA (claim_task wEmpty tid2 agentA 7).2.locks tid2 =
        some { agent_id := agentA, claimed_at := 7, task_id := tid2 } :=
  claim_task_no_record wEmpty tid2 agentA 7 (by decide) (by decide)

/-- Claim C10: the while loop of agent_loop runs at most
max_iterations passes whatever the registry reports in each pass, so
an agent stops even while pending tasks remain. -/
theorem agent_loop_bounded (obs : Nat → LoopObs) (max_iterations : Nat) :
    agent_loop_iters obs max_iterations ≤ max_iterations := by
  have h := loop_go_le obs max_iterations 0
  rw [agent_loop_iters]
  omega

/-- Claim C2, failing input: in wDep the pending task taskDep has the
dependency tid1 whose task is still pending, yet the exact call the
agent loop makes (get_available_tasks with the dependencies_met
argument left at its default of None) returns taskDep, and even ranks
it first. -/
theorem loop_returns_unmet_dependency :
    loopAvailable wDep = [taskDep, taskP]
    ∧ taskDep.dependencies = [tid1]
    ∧ (get_task wDep tid1).map Task.status = some TaskStatus.pending
    ∧ taskDep ∈ loopAvailable wDep := by
  refine ⟨by decide, by decide, by decide, by decide⟩

/-- Claim C3, counterexample: on the lock-free registry wS no agent
owns a lock on tid1, so agentB is not the current lock owner, yet
release_task raises no PermissionError and rewrites the task record to
completed: the ownership check is skipped whenever the lock file is
absent. -/
theorem release_without_lock_mutates :
    lookupA wS.locks tid1 = none
    ∧ release_task wS tid1 agentB true (some msgDone) none 5 = ReleaseResult.ok c3After
    ∧ get_task c3After tid1 ≠ get_task wS tid1
    ∧ (get_task c3After tid1).map Task.status = some TaskStatus.completed := by
  refine ⟨by decide, by decide, by decide, by decide⟩

/-- Claim C3, amended: whenever a lock record for the task exists and
its recorded owner differs from the calling agent, release_task raises
PermissionError before performing any mutation, so the whole registry
state, task record included, is returned unchanged; with no lock
record present the ownership check is skipped entirely. -/
theorem release_by_non_owner (s : RegistryState) (task_id agent_id : String)
    (success : Bool) (result error : Option String) (now : Nat) (ld : LockData)
    (hl : lookupA s.locks task_id = some ld) (hne : ld.agent_id ≠ agent_id) :
    release_task s task_id agent_id success result error now =
      ReleaseResult.ownershipViolation s :=
  release_non_owner_raises s task_id agent_id success result error now ld hl hne

/-- Witness for release_by_non_owner: agentB attempts to release the
task locked by agentA and the call fails with the state unchanged. -/
theorem release_by_non_owner_witness :
    release_task wL tid1 agentB true (some msgDone) none 5 =
      ReleaseResult.ownershipViolation wL :=
  release_by_non_owner wL tid1 agentB true (some msgDone) none 5 lockA
    (by decide) (by decide)

/-- Claim C4, counterexample: taskA4 is created before taskB4 and both
have priority 3; the two directory enumerations of the same pair of
task files are permutations of each other, yet get_available_tasks
echoes whichever enumeration order the filesystem yields, so the
enumeration listing taskB4 first returns the second-created task
first: the tie is not broken by any monotonic creation sequence. -/
theorem ties_follow_enumeration :
    List.Perm [(taskB4.id, taskB4), (taskA4.id, taskA4)]
      [(taskA4.id, taskA4), (taskB4.id, taskB4)]
    ∧ taskA4.priority = taskB4.priority
    ∧ taskA4 ≠ taskB4
    ∧ get_available_tasks [(taskB4.id, taskB4), (taskA4.id, taskA4)] none
        = [taskB4, taskA4]
    ∧ get_available_tasks [(taskA4.id, taskA4), (taskB4.id, taskB4)] none
        = [taskA4, taskB4] := by
  refine ⟨by decide, by decide, by decide, by decide, by decide⟩

/-- Claim C4, amended: get_available_tasks returns the pending tasks
that pass the dependency callback sorted by priority descending, and
tasks of equal priority keep the relative order in which the directory
enumeration listed them (a stable sort); the source ties that order to
nothing else, in particular not to a creation sequence. -/
theorem available_sorted_stable (ts : List (String × Task)) (p : Option (Task → Bool)) :
    List.Pairwise (fun a b => b.priority ≤ a.priority) (get_available_tasks ts p)
    ∧ ∀ c : Int,
        (get_available_tasks ts p).filter (prioEq c) =
          (eligibleEnum ts p).filter (prioEq c) :=
  ⟨pairwise_sortDesc _, fun c => filter_sortDesc c _⟩

/-- Claim C5: on the claimed registry wL with a succeeding handler and
both pushes rejected, execute_task performs sync, push, a fresh sync
and exactly one retry push, but then calls release_task with the
handler success flag: the outcome assigned to push_success by the
retry is never read again, so the persistent push failure is not
surfaced and the task ends completed rather than failed. -/
theorem push_retry_outcome_dropped :
    (execute_task wL tid1 agentA (HandlerOutcome.ok true msgDone) false false 9).trace
      = [WsCall.sync, WsCall.push false, WsCall.sync, WsCall.push false]
    ∧ (execute_task wL tid1 agentA (HandlerOutcome.ok true msgDone) false false 9).returned
      = some true
    ∧ (get_task (execute_task wL tid1 agentA
        (HandlerOutcome.ok true msgDone) false false 9).state tid1).map Task.status
      = some TaskStatus.completed := by
  refine ⟨by decide, by decide, by decide⟩

/-- Claim C6: for any handler outcome, normal return of either flag or
a raised exception, and any push outcomes, execute_task on a task
whose lock the agent owns leaves the task record in the tasks
directory with a terminal status and an archived copy in
completed_tasks: the record never disappears. -/
theorem execute_task_terminal (s : RegistryState) (task_id agent_id : String)
    (h : HandlerOutcome) (p1 p2 : Bool) (now : Nat) (t : Task) (ld : LockData)
    (htask : get_task s task_id = some t) (hid : t.id = task_id)
    (hlock : lookupA s.locks task_id = some ld) (hown : ld.agent_id = agent_id) :
    ∃ t2 : Task,
      get_task (execute_task s task_id agent_id h p1 p2 now).state task_id = some t2
      ∧ (t2.status = TaskStatus.completed ∨ t2.status = TaskStatus.failed)
      ∧ lookupA (execute_task s task_id agent_id h p1 p2 now).state.completed task_id
          = some t2 := by
  have hrel : ∀ (success : Bool) (result error : Option String),
      release_task s task_id agent_id success result error now =
        ReleaseResult.ok (applyRelease { s with locks := removeA s.locks task_id }
          task_id success result error now) :=
    fun success result error =>
      release_owner_ok s task_id agent_id success result error now ld hlock hown
  have htask2 : lookupA ({ s with locks := removeA s.locks task_id } :
      RegistryState).tasks task_id = some t := htask
  have happ : ∀ (success : Bool) (result error : Option String),
      lookupA (applyRelease { s with locks := removeA s.locks task_id }
          task_id success result error now).tasks task_id
        = some (releasedTask t success result error now)
      ∧ lookupA (applyRelease { s with locks := removeA s.locks task_id }
          task_id success result error now).completed task_id
        = some (releasedTask t success result error now) :=
    fun success result error =>
      applyRelease_lookup _ task_id success result error now t htask2 hid
  cases h with
  | raised e =>
      refine ⟨releasedTask t false none (some e) now, ?_, ?_, ?_⟩
      · show (lookupA (execute_task s task_id agent_id
            (HandlerOutcome.raised e) p1 p2 now).state.tasks task_id) = _
        simp only [execute_task, hrel false none (some e)]
        exact (happ false none (some e)).1
      · right; rfl
      · simp only [execute_task, hrel false none (some e)]
        exact (happ false none (some e)).2
  | ok success msg =>
      cases success with
      | true =>
          refine ⟨releasedTask t true (some msg) none now, ?_, ?_, ?_⟩
          · show (lookupA (execute_task s task_id agent_id
                (HandlerOutcome.ok true msg) p1 p2 now).state.tasks task_id) = _
            simp only [execute_task, if_true, hrel true (some msg) none]
            exact (happ true (some msg) none).1
          · left; rfl
          · simp only [execute_task, if_true, hrel true (some msg) none]
            exact (happ true (some msg) none).2
      | false =>
          have hres : execute_task s task_id agent_id (HandlerOutcome.ok false msg) p1 p2 now
              = { returned := some false,
                  state := applyRelease { s with locks := removeA s.locks task_id }
                    task_id false none (some msg) now,
                  trace := [WsCall.sync] } := by
            simp [execute_task, hrel false none (some msg)]
          refine ⟨releasedTask t false none (some msg) now, ?_, ?_, ?_⟩
          · show (lookupA (execute_task s task_id agent_id
                (HandlerOutcome.ok false msg) p1 p2 now).state.tasks task_id) = _
            rw [hres]
            exact (happ false none (some msg)).1
          · right; rfl
          · rw [hres]
            exact (happ false none (some msg)).2

/-- Witness for execute_task_terminal: on wL, with the handler raising
an exception, the task record ends failed and archived. -/
theorem execute_task_terminal_witness :
    ∃ t2 : Task,
      get_task (execute_task wL tid1 agentA
        (HandlerOutcome.raised msgBoom) true true 9).state tid1 = some t2
      ∧ (t2.status = TaskStatus.completed ∨ t2.status = TaskStatus.failed)
      ∧ lookupA (execute_task wL tid1 agentA
          (HandlerOutcome.raised msgBoom) true true 9).state.completed tid1 = some t2 :=
  execute_task_terminal wL tid1 agentA (HandlerOutcome.raised msgBoom) true true 9
    taskC lockA (by decide) (by decide) (by decide) (by decide)

/-- Claim C7, counterexample: tid1 moves pending, claimed, completed
under one claim and release, never holding status in_progress, so it
reaches a terminal state without passing through every listed stage;
and once its lock is gone a further claim_task call drags the
completed task back to claimed, so the transitions are not monotonic
either. -/
theorem status_machine_skips_stage :
    (get_task wS tid1).map Task.status = some TaskStatus.pending
    ∧ (claim_task wS tid1 agentA 1).1 = true
    ∧ (get_task c7s1 tid1).map Task.status = some TaskStatus.claimed
    ∧ release_task c7s1 tid1 agentA true (some msgDone) none 2 = ReleaseResult.ok c7s2
    ∧ (get_task c7s2 tid1).map Task.status = some TaskStatus.completed
    ∧ (claim_task c7s2 tid1 agentB 3).1 = true
    ∧ (get_task c7s3 tid1).map Task.status = some TaskStatus.claimed := by
  refine ⟨by decide, by decide, by decide, by decide, by decide, by decide, by decide⟩

/-- Claim C7, amended: the base protocol writes statuses only as
follows: claim_task sets an existing task to claimed whenever no lock
file is present, whatever the prior status, and release_task sets the
task to completed on success and failed otherwise; neither blocked nor
in_progress is ever assigned by any operation, so a claimed and
released task follows pending, claimed, terminal with the in_progress
stage skipped. -/
theorem protocol_status_writes (s : RegistryState) (task_id agent_id : String)
    (now : Nat) (success : Bool) (result error : Option String) :
    (NoReserved s.tasks → NoReserved (claim_task s task_id agent_id now).2.tasks)
    ∧ (∀ s1, release_task s task_id agent_id success result error now =
          ReleaseResult.ok s1 → NoReserved s.tasks → NoReserved s1.tasks)
    ∧ (∀ t, lookupA s.locks task_id = none → get_task s task_id = some t →
        t.id = task_id →
        (get_task (claim_task s task_id agent_id now).2 task_id).map Task.status
          = some TaskStatus.claimed)
    ∧ (∀ s1 t, release_task s task_id agent_id success result error now =
          ReleaseResult.ok s1 → get_task s task_id = some t → t.id = task_id →
        (get_task s1 task_id).map Task.status
          = some (if success then TaskStatus.completed else TaskStatus.failed)) := by
  refine ⟨?_, ?_, ?_, ?_⟩
  · intro hres
    cases hl : lookupA s.locks task_id with
    | some ld => rw [claim_task_of_locked s task_id agent_id now ld hl]; exact hres
    | none =>
        cases ht : lookupA s.tasks task_id with
        | none =>
            have he : (claim_task s task_id agent_id now).2.tasks = s.tasks := by
              simp [claim_task, hl, ht]
            rw [he]; exact hres
        | some t =>
            have he : (claim_task s task_id agent_id now).2.tasks
                = setA s.tasks t.id (claimedTask t agent_id now) := by
              simp [claim_task, hl, ht, add_task, claimedTask]
            rw [he]
            exact noReserved_setA hres (by constructor <;> simp [claimedTask])
  · intro s1 heq hres
    cases hl : lookupA s.locks task_id with
    | none =>
        rw [release_no_lock_ok s task_id agent_id success result error now hl] at heq
        cases heq
        exact noReserved_applyRelease s task_id success result error now hres
    | some ld =>
        by_cases hown : ld.agent_id = agent_id
        · rw [release_owner_ok s task_id agent_id success result error now ld hl hown] at heq
          cases heq
          exact noReserved_applyRelease _ task_id success result error now hres
        · rw [release_non_owner_raises s task_id agent_id success result error now ld hl hown] at heq
          exact ReleaseResult.noConfusion heq
  · intro t hl ht hid
    have ht2 : lookupA s.tasks task_id = some t := ht
    have he : (claim_task s task_id agent_id now).2.tasks
        = setA s.tasks t.id (claimedTask t agent_id now) := by
      simp [claim_task, hl, ht2, add_task, claimedTask]
    show (lookupA (claim_task s task_id agent_id now).2.tasks task_id).map Task.status = _
    rw [he, hid, lookupA_setA_self]
    rfl
  · intro s1 t heq ht hid
    have ht2 : lookupA s.tasks task_id = some t := ht
    cases hl : lookupA s.locks task_id with
    | none =>
        rw [release_no_lock_ok s task_id agent_id success result error now hl] at heq
        cases heq
        show (lookupA (applyRelease s task_id success result error now).tasks task_id).map
          Task.status = _
        rw [(applyRelease_lookup s task_id success result error now t ht2 hid).1]
        rfl
    | some ld =>
        by_cases hown : ld.agent_id = agent_id
        · rw [release_owner_ok s task_id agent_id success result error now ld hl hown] at heq
          cases heq
          have ht3 : lookupA ({ s with locks := removeA s.locks task_id } :
              RegistryState).tasks task_id = some t := ht2
          show (lookupA (applyRelease { s with locks := removeA s.locks task_id }
              task_id success result error now).tasks task_id).map Task.status = _
          rw [(applyRelease_lookup _ task_id success result error now t ht3 hid).1]
          rfl
        · rw [release_non_owner_raises s task_id agent_id success result error now ld hl hown] at heq
          exact ReleaseResult.noConfusion heq

/-- Witness for protocol_status_writes on the registry wS with an
owning claim and release: the claimed task never shows a reserved
status, the claim writes claimed and the release writes completed. -/
theorem protocol_status_writes_witness :
    NoReserved (claim_task wS tid1 agentA 2).2.tasks
    ∧ NoReserved c7w.tasks
    ∧ (get_task (claim_task wS tid1 agentA 2).2 tid1).map Task.status
        = some TaskStatus.claimed
    ∧ (get_task c7w tid1).map Task.status
        = some (if true then TaskStatus.completed else TaskStatus.failed) :=
  ⟨(protocol_status_writes wS tid1 agentA 2 true (some msgDone) none).1
      (by unfold NoReserved; decide),
   (protocol_status_writes wS tid1 agentA 2 true (some msgDone) none).2.1 c7w
      (by decide) (by unfold NoReserved; decide),
   (protocol_status_writes wS tid1 agentA 2 true (some msgDone) none).2.2.1 taskP
      (by decide) (by decide) (by decide),
   (protocol_status_writes wS tid1 agentA 2 true (some msgDone) none).2.2.2 c7w taskP
      (by decide) (by decide) (by decide)⟩

end AgentTeam
